import Mathlib

/-!
Shallow embedding of `app.py` (CrimeAnalytics): a single linear pipeline that
loads homicide rows from a SQLite store, derives temporal features with pandas,
aggregates, renders two charts, a folium map and an HTML report.

Machine-level conventions of the embedding:
* a pandas `Series` column is a `List` of `Option` values (`none` = NaN/NaT);
* a parsed timestamp is a `Nat`: minutes elapsed since 1970-01-01 00:00
  (which was a Thursday);
* Python exceptions surface as `Except String`;
* `value_counts()` is modelled as: distinct non-null values in first-seen
  order, stably sorted by descending count (pandas keeps insertion order of
  the hash table and sorts by count), realised here by sorting the
  first-seen-indexed pairs lexicographically by (count desc, index asc).
-/

deriving instance DecidableEq for Except

namespace CrimeAnalytics

/-! ### Calendar arithmetic backing the pandas `dt` accessors -/

/-- Gregorian leap-year test. -/
def isLeap (y : Nat) : Bool :=
  y % 4 = 0 && (y % 100 ≠ 0 || y % 400 = 0)

/-- Month lengths of year `y`, January first. -/
def monthDays (y : Nat) : List Nat :=
  [31, if isLeap y then 29 else 28, 31, 30, 31, 30, 31, 31, 30, 31, 30, 31]

/-- Length of year `y` in days. -/
def yearLen (y : Nat) : Nat := if isLeap y then 366 else 365

/-- Days elapsed from 1970-01-01 to the start of year `1970 + n`. -/
def daysBeforeYear : Nat → Nat
  | 0 => 0
  | n + 1 => daysBeforeYear n + yearLen (1970 + n)

/-- English day names, Monday first. -/
def weekDayNames : List String :=
  ["Monday", "Tuesday", "Wednesday", "Thursday", "Friday", "Saturday", "Sunday"]

/-- English month names. -/
def monthNames : List String :=
  ["January", "February", "March", "April", "May", "June",
   "July", "August", "September", "October", "November", "December"]

/-- Hour-of-day of a timestamp, as `Series.dt.hour` yields it. -/
def hourOf (t : Nat) : Nat := t / 60 % 24

/-- Day-of-week name of a timestamp, as `Series.dt.day_name()` yields it
(1970-01-01, minute 0, was a Thursday: index 3 Monday-first). -/
def dayName (t : Nat) : String :=
  weekDayNames.getD ((t / 1440 + 3) % 7) "Monday"

/-- Zero-pad a numeral to two digits. -/
def pad2 (n : Nat) : String :=
  if n < 10 then "0" ++ toString n else toString n

/-- Formatted 12-hour time, as `dt.strftime` with pattern I:M p yields it. -/
def strftime12 (t : Nat) : String :=
  let hh := hourOf t
  let h12 := if hh % 12 = 0 then 12 else hh % 12
  pad2 h12 ++ ":" ++ pad2 (t % 60) ++ " " ++ (if hh < 12 then "AM" else "PM")

/-- Fuel-driven year scan splitting a day count into year and day-of-year;
structural recursion on the fuel keeps it kernel-reducible. -/
def yearFromDaysAux : Nat → Nat → Nat → Nat × Nat
  | 0, y, d => (y, d)
  | fuel + 1, y, d =>
    if d < yearLen y then (y, d) else yearFromDaysAux fuel (y + 1) (d - yearLen y)

/-- Splits a day count (days since 1970-01-01) into year and day-of-year
(fuel `d + 1` always suffices since each step consumes at least 365 days). -/
def yearFromDays (y d : Nat) : Nat × Nat := yearFromDaysAux (d + 1) y d

/-- Splits a zero-based day-of-year into month (starting at `m`) and
one-based day-of-month, walking the month-length list. -/
def monthFromDays : List Nat → Nat → Nat → Nat × Nat
  | [], m, d => (m, d + 1)
  | len :: rest, m, d =>
    if d < len then (m, d + 1) else monthFromDays rest (m + 1) (d - len)

/-- Formatted long date, as the scalar `Timestamp.strftime` with pattern
B d, Y yields it (used in the marker popup). -/
def strftimeLong (t : Nat) : String :=
  let yd := yearFromDays 1970 (t / 1440)
  let md := monthFromDays (monthDays yd.1) 1 yd.2
  monthNames.getD (md.1 - 1) "January" ++ " " ++ pad2 md.2 ++ ", " ++ toString yd.1

/-- Character-level prefix test (kernel-reducible string machinery). -/
def charsHasPre : List Char → List Char → Bool
  | [], _ => true
  | _ :: _, [] => false
  | p :: ps, c :: cs => p == c && charsHasPre ps cs

/-- Character-level substring test: does `pat` occur anywhere inside the
first list? -/
def charsContains : List Char → List Char → Bool
  | [], pat => pat.isEmpty
  | c :: cs, pat => charsHasPre pat (c :: cs) || charsContains cs pat

/-- Splits a character list on a separator character. -/
def splitOnChar (sep : Char) : List Char → List (List Char)
  | [] => [[]]
  | c :: cs =>
    match splitOnChar sep cs with
    | [] => if c == sep then [[], []] else [[c]]
    | t :: ts => if c == sep then [] :: t :: ts else (c :: t) :: ts

/-- Parses a non-empty digit-only character list as a decimal numeral. -/
def charsToNat? (cs : List Char) : Option Nat :=
  if cs.isEmpty then none
  else if cs.all Char.isDigit then
    some (cs.foldl (fun acc c => acc * 10 + (c.toNat - 48)) 0)
  else none

/-- Modelled library behaviour: `pd.to_datetime(..., errors='coerce')` on one
cell. The tolerant parser accepts an ISO-like "YYYY-MM-DD HH:MM" string (the
embedding's canonical timestamp format) with in-range fields and coerces
everything else to null, never raising. -/
def parseDatetime (s : String) : Option Nat :=
  match splitOnChar ' ' s.data with
  | [datePart, timePart] =>
    match splitOnChar '-' datePart, splitOnChar ':' timePart with
    | [ys, ms, ds], [hs, mins] =>
      match charsToNat? ys, charsToNat? ms, charsToNat? ds,
          charsToNat? hs, charsToNat? mins with
      | some y, some m, some d, some h, some mi =>
        if 1970 ≤ y ∧ 1 ≤ m ∧ m ≤ 12 ∧ 1 ≤ d ∧ d ≤ (monthDays y).getD (m - 1) 0
            ∧ h ≤ 23 ∧ mi ≤ 59 then
          some ((daysBeforeYear (y - 1970) + ((monthDays y).take (m - 1)).sum + (d - 1)) * 1440
            + h * 60 + mi)
        else none
      | _, _, _, _, _ => none
    | _, _ => none
  | _ => none

/-- Null-propagating cell parse: a null cell stays null (NaT). -/
def toDatetime (o : Option String) : Option Nat := o.bind parseDatetime

/-! ### Data model -/

/-- One raw incident record as `pd.read_sql` materialises it: the store's
native column set of `crime_data` that the program touches. -/
structure RawRow where
  primaryType : String
  description : String
  block : String
  premisDesc : Option String
  dateStr : Option String
  latitude : Option Rat
  longitude : Option Rat
  victAge : Option Rat
  victSex : Option String
  arrest : Bool
deriving DecidableEq

/-- A row after the Feature Deriver added the parsed `Date` and the three
derived columns in place. -/
structure Row where
  primaryType : String
  description : String
  block : String
  premisDesc : Option String
  latitude : Option Rat
  longitude : Option Rat
  victAge : Option Rat
  victSex : Option String
  arrest : Bool
  date : Option Nat
  dayOfWeek : Option String
  hour : Option Nat
  timeOfDay : Option String
deriving DecidableEq

/-- Feature Deriver (app.py lines 25-32): parse `Date` with coercion, then
derive `Day of Week`, `Hour` and `Time of Day`; the `dt` accessors propagate
NaT to NaN, i.e. `Option.map`. -/
def derive (r : RawRow) : Row :=
  let d := toDatetime r.dateStr
  { primaryType := r.primaryType
    description := r.description
    block := r.block
    premisDesc := r.premisDesc
    latitude := r.latitude
    longitude := r.longitude
    victAge := r.victAge
    victSex := r.victSex
    arrest := r.arrest
    date := d
    dayOfWeek := d.map dayName
    hour := d.map hourOf
    timeOfDay := d.map strftime12 }

/-- SQLite `"Primary Type" LIKE '%HOMICIDE%'`: substring containment,
case-insensitive over ASCII as SQLite's default LIKE is. -/
def likeHomicide (s : String) : Bool :=
  charsContains (s.data.map Char.toUpper) ("HOMICIDE".data)

/-- Data Loader query result (app.py lines 14-19): all rows whose
`Primary Type` matches the LIKE pattern, in store order. -/
def loadHomicides (store : List RawRow) : List RawRow :=
  store.filter (fun r => likeHomicide r.primaryType)

/-- The in-memory table every aggregate reads: filtered rows with derived
features. -/
def pipelineRows (store : List RawRow) : List Row :=
  (loadHomicides store).map derive

/-! ### pandas value_counts, idxmax, and frequency-table helpers -/

/-- Distinct values of a list in order of first occurrence (the key order of
the hash table underlying pandas `value_counts`). -/
def distinctFirstSeen {α : Type} [DecidableEq α] : List α → List α
  | [] => []
  | y :: t => y :: (distinctFirstSeen t).filter (fun a => a ≠ y)

/-- Pairs each element with its position, starting at `k`. -/
def withIdx {α : Type} : Nat → List α → List (α × Nat)
  | _, [] => []
  | k, a :: t => (a, k) :: withIdx (k + 1) t

/-- Distinct values decorated with their multiplicity and first-seen rank. -/
def vcDecorated {α : Type} [DecidableEq α] (ys : List α) : List (α × Nat × Nat) :=
  (withIdx 0 (distinctFirstSeen ys)).map (fun p => (p.1, ys.count p.1, p.2))

/-- Sort order of `value_counts`: count descending, first-seen rank ascending
on ties (pandas' stable descending sort by count). -/
def vcLe {α : Type} (a b : α × Nat × Nat) : Prop :=
  b.2.1 < a.2.1 ∨ (a.2.1 = b.2.1 ∧ a.2.2 ≤ b.2.2)

instance {α : Type} : DecidableRel (@vcLe α) := fun a b => by
  unfold vcLe; exact inferInstance

instance {α : Type} : IsTotal (α × Nat × Nat) (@vcLe α) :=
  ⟨by intro a b; unfold vcLe; omega⟩

instance {α : Type} : IsTrans (α × Nat × Nat) (@vcLe α) :=
  ⟨by intro a b c; unfold vcLe; omega⟩

/-- `Series.value_counts()` (default `dropna=True`): non-null distinct values
with occurrence counts, most frequent first, ties in first-seen order. -/
def valueCounts {α : Type} [DecidableEq α] (xs : List (Option α)) : List (α × Nat) :=
  (List.insertionSort vcLe (vcDecorated (xs.filterMap id))).map (fun p => (p.1, p.2.1))

/-- Message of the ValueError that pandas `idxmax` raises on an empty series. -/
def argmaxEmptyMsg : String := "attempt to get argmax of an empty sequence"

/-- Scan keeping the label of the first entry with maximal count. -/
def idxmaxAux {α : Type} (best : α × Nat) : List (α × Nat) → α
  | [] => best.1
  | p :: rest => if best.2 < p.2 then idxmaxAux p rest else idxmaxAux best rest

/-- `Series.idxmax()`: label of the first maximal entry; raises on an empty
series. -/
def idxmax {α : Type} : List (α × Nat) → Except String α
  | [] => .error argmaxEmptyMsg
  | p :: rest => .ok (idxmaxAux p rest)

/-- Count associated with key `v` in a frequency table (0 when absent). -/
def tableCount {α : Type} [DecidableEq α] (t : List (α × Nat)) (v : α) : Nat :=
  ((t.filter (fun p => p.1 = v)).map (fun p => p.2)).sum

/-- Sum of all counts of a frequency table. -/
def sumCounts {α : Type} (t : List (α × Nat)) : Nat :=
  (t.map (fun p => p.2)).sum

/-! ### Aggregator (app.py lines 39-129) -/

/-- The `Day of Week` column. -/
def dayValues (rows : List Row) : List (Option String) := rows.map (fun r => r.dayOfWeek)

/-- The `Hour` column. -/
def hourValues (rows : List Row) : List (Option Nat) := rows.map (fun r => r.hour)

/-- The `Premis Desc` column. -/
def premisValues (rows : List Row) : List (Option String) := rows.map (fun r => r.premisDesc)

/-- Non-null premise descriptions in row order (first-seen reference order). -/
def premisList (rows : List Row) : List String := (premisValues rows).filterMap id

/-- Line 41: `homicides_by_day = homicide_df['Day of Week'].value_counts()`. -/
def homicidesByDay (rows : List Row) : List (String × Nat) := valueCounts (dayValues rows)

/-- Line 53: `homicides_by_hour = homicide_df['Hour'].value_counts().sort_index()`. -/
def homicidesByHour (rows : List Row) : List (Nat × Nat) :=
  List.insertionSort (fun a b => a.1 ≤ b.1) (valueCounts (hourValues rows))

/-- Line 109: `total_homicides = len(homicide_df)`. -/
def totalHomicides (rows : List Row) : Nat := rows.length

/-- Line 110: `homicide_df['Day of Week'].value_counts().idxmax()`. -/
def mostCommonDay (rows : List Row) : Except String String :=
  idxmax (valueCounts (dayValues rows))

/-- Line 111: `homicide_df['Hour'].value_counts().idxmax()`. -/
def mostCommonTime (rows : List Row) : Except String Nat :=
  idxmax (valueCounts (hourValues rows))

/-- pandas `Series.mean()` over already non-null entries: NaN (`none`) on an
empty column. -/
def seriesMean (xs : List Rat) : Option Rat :=
  if xs.length = 0 then none else some (xs.sum / (xs.length : Rat))

/-- Lines 113-117 (`Vict Age` is present in this schema; `skipna` drops the
null ages). -/
def avgVictimAge (rows : List Row) : Option Rat :=
  seriesMean (rows.filterMap (fun r => r.victAge))

/-- Lines 120-123. -/
def genderDistribution (rows : List Row) : List (String × Nat) :=
  valueCounts (rows.map (fun r => r.victSex))

/-- Line 126: `arrests_made = homicide_df['Arrest'].mean() * 100`; the mean of
an empty boolean column is NaN (`none`). -/
def arrestsMade (rows : List Row) : Option Rat :=
  if rows.length = 0 then none
  else some ((((rows.countP (fun r => r.arrest)) : Rat) / ((rows.length : Rat))) * 100)

/-- Line 129: `top_5_locations = homicide_df['Premis Desc'].value_counts().head(5)`. -/
def top5Locations (rows : List Row) : List (String × Nat) :=
  (valueCounts (premisValues rows)).take 5

/-! ### Map Renderer (app.py lines 63-106) -/

/-- Line 66: `homicide_map_df = homicide_df.dropna(subset=['Latitude', 'Longitude'])`. -/
def mapDf (rows : List Row) : List Row :=
  rows.filter (fun r => r.latitude.isSome && r.longitude.isSome)

/-- Line 69: map centre, the mean of the valid coordinates (NaN on empty). -/
def mapCenter (rows : List Row) : Option (Rat × Rat) :=
  match seriesMean ((mapDf rows).filterMap (fun r => r.latitude)),
        seriesMean ((mapDf rows).filterMap (fun r => r.longitude)) with
  | some la, some lo => some (la, lo)
  | _, _ => none

/-- One folium marker of the cluster layer. -/
structure Marker where
  lat : Rat
  lon : Rat
  popup : String
deriving DecidableEq

/-- Lines 84-90: the popup text; `row['Date'].strftime('%B %d, %Y')` raises
ValueError when the parsed date is NaT. -/
def popupInfo (r : Row) : Except String String :=
  match r.date with
  | none => .error "NaTType does not support strftime"
  | some t => .ok
      ("Homicide Details: Description: " ++ r.description
        ++ " Arrest Made: " ++ (if r.arrest then "Yes" else "No")
        ++ " Date: " ++ strftimeLong t
        ++ " Location: " ++ r.block)

/-- Lines 82-95: the marker loop over `homicide_map_df`; the first row whose
popup construction raises aborts the loop. -/
def buildMarkers : List Row → Except String (List Marker)
  | [] => .ok []
  | r :: rest =>
    match popupInfo r with
    | .error e => .error e
    | .ok pop =>
      match buildMarkers rest with
      | .error e => .error e
      | .ok ms =>
        .ok ({ lat := r.latitude.getD 0, lon := r.longitude.getD 0, popup := pop } :: ms)

/-! ### Data Loader resource handling (app.py lines 11-22) -/

/-- Outcome of the load stage plus the state of the SQLite connection when
control leaves the stage (by normal return or by a propagating exception). -/
structure LoadResult where
  df : Except String (List RawRow)
  connClosed : Bool

/-- Message of a pandas DatabaseError from `read_sql`. -/
def dbErrMsg : String := "DatabaseError: Execution failed"

/-- Lines 11-22 verbatim control flow: `sqlite3.connect`; `pd.read_sql`;
`conn.close()`. There is no try/finally or context manager, so a failing
query propagates before the close call runs; `queryFails` models the
environment condition that makes `read_sql` raise. -/
def dataLoader (store : List RawRow) (queryFails : Bool) : LoadResult :=
  if queryFails then { df := .error dbErrMsg, connClosed := false }
  else { df := .ok (loadHomicides store), connClosed := true }

/-! ### Artifacts and the end-to-end run -/

/-- Observable side effects of a run. -/
inductive Event where
  | write (path : String)
  | status (msg : String)
deriving DecidableEq

/-- Line 48 output path. -/
def dayChartFile : String := "output_images/homicides_by_day_of_week.png"

/-- Line 60 output path. -/
def hourChartFile : String := "output_images/homicides_by_time_of_day.png"

/-- Line 106 output path. -/
def mapFile : String := "output_images/homicides_map_toggle.html"

/-- Report path fixed by the spec's output contract. -/
def reportFile : String := "homicide_report.html"

/-- Modelled from the spec: src/app.py ends mid-statement at
`template.render` (line 197), so the Report Composer tail - the render
arguments, the write of `homicide_report.html` and the final operator
message - is missing from src. Per the spec, the report overwrites the single
fixed report path and completion is signalled via a final status message. -/
def statusMessage : String := "Report generated: homicide_report.html"

/-- One run of app.py, recording the output-file writes and the final status
message; an uncaught exception aborts the run. Stage order as in the source:
day chart, hour chart, map (marker popups raise on a NaT date), summary
aggregates (idxmax raises on an empty series), then the spec-modelled report
write and status message. -/
def runPipeline (store : List RawRow) : Except String (List Event) :=
  match buildMarkers (mapDf (pipelineRows store)) with
  | .error e => .error e
  | .ok _ =>
    match mostCommonDay (pipelineRows store) with
    | .error e => .error e
    | .ok _ =>
      match mostCommonTime (pipelineRows store) with
      | .error e => .error e
      | .ok _ =>
        .ok [Event.write dayChartFile, Event.write hourChartFile, Event.write mapFile,
             Event.write reportFile, Event.status statusMessage]

/-- File paths written by a run, in order. -/
def artifactWrites (evs : List Event) : List String :=
  evs.filterMap (fun e => match e with | .write p => some p | .status _ => none)

/-! ### Concrete fixtures used by witnesses and counterexamples -/

/-- Convenience constructor for concrete incident rows. -/
def mkRaw (pt : String) (ds : Option String) (la lo : Option Rat) (ar : Bool)
    (pr : Option String) : RawRow :=
  { primaryType := pt, description := "desc", block := "100 BLOCK",
    premisDesc := pr, dateStr := ds, latitude := la, longitude := lo,
    victAge := none, victSex := none, arrest := ar }

/-- A store with one well-formed homicide row (timestamp parses, coordinates
present). -/
def c1Store : List RawRow :=
  [mkRaw "HOMICIDE" (some "2020-01-06 03:15") (some 41) (some (-87)) true (some "STREET")]

/-- The expected successful event trace. -/
def c1Events : List Event :=
  [Event.write dayChartFile, Event.write hourChartFile, Event.write mapFile,
   Event.write reportFile, Event.status statusMessage]

/-- A store in which zero rows match the homicide filter. -/
def c2Store : List RawRow :=
  [mkRaw "THEFT" (some "2020-01-06 03:15") (some 41) (some (-87)) false (some "STREET")]

/-- Another zero-match store. -/
def c2WStore : List RawRow := [mkRaw "THEFT" none none none false none]

/-- A store whose single homicide row has a null timestamp. -/
def c3Store : List RawRow :=
  [mkRaw "HOMICIDE" none (some 41) (some (-87)) true (some "STREET")]

/-- A store whose single homicide row falls in hour 3. -/
def c4Store : List RawRow :=
  [mkRaw "HOMICIDE" (some "2020-01-06 03:15") (some 41) (some (-87)) true (some "STREET")]

/-- A derived row set with one complete row. -/
def c5Rows : List Row :=
  pipelineRows
    [mkRaw "HOMICIDE" (some "2020-01-06 03:15") (some 41) (some (-87)) true (some "STREET")]

/-- A derived row lacking coordinates (hour 4, Monday). -/
def c5Row : Row :=
  derive (mkRaw "HOMICIDE" (some "2020-01-06 04:20") none none true (some "APARTMENT"))

/-- A raw row whose timestamp parses. -/
def c6RowGood : RawRow :=
  mkRaw "HOMICIDE" (some "2020-01-06 03:15") (some 41) (some (-87)) true (some "STREET")

/-- A raw row whose timestamp is unparsable. -/
def c6RowBad : RawRow := mkRaw "HOMICIDE" (some "not a date") none none false none

/-- A two-row derived set, one arrest out of two rows. -/
def c7Rows : List Row :=
  pipelineRows
    [mkRaw "HOMICIDE" (some "2020-01-06 03:15") (some 41) (some (-87)) true (some "STREET"),
     mkRaw "HOMICIDE" (some "2020-01-07 04:15") none none false (some "ALLEY")]

/-- A derived row set whose valid-coordinate rows all have parsed dates. -/
def c10Rows : List Row :=
  [derive (mkRaw "HOMICIDE" (some "2020-01-06 03:15") (some 41) (some (-87)) true (some "STREET"))]

/-! ### Helper lemmas about the value_counts model -/

theorem mem_distinctFirstSeen {α : Type} [DecidableEq α] {ys : List α} {a : α} :
    a ∈ distinctFirstSeen ys ↔ a ∈ ys := by
  induction ys with
  | nil => simp [distinctFirstSeen]
  | cons y t ih =>
    simp only [distinctFirstSeen, List.mem_cons, List.mem_filter, ih, decide_eq_true_eq]
    by_cases h : a = y
    · simp [h]
    · simp [h]

theorem nodup_distinctFirstSeen {α : Type} [DecidableEq α] (ys : List α) :
    (distinctFirstSeen ys).Nodup := by
  induction ys with
  | nil => simp [distinctFirstSeen]
  | cons y t ih =>
    simp only [distinctFirstSeen, List.nodup_cons]
    refine ⟨fun hmem => ?_, ih.filter _⟩
    have := (List.mem_filter.mp hmem).2
    simp at this

theorem pairwise_indexOf_distinctFirstSeen {α : Type} [DecidableEq α] (ys : List α) :
    (distinctFirstSeen ys).Pairwise (fun a b => ys.indexOf a < ys.indexOf b) := by
  induction ys with
  | nil => constructor
  | cons y t ih =>
    simp only [distinctFirstSeen]
    constructor
    · intro b hb
      have hbne : b ≠ y := by
        have := (List.mem_filter.mp hb).2
        simpa using this
      rw [List.indexOf_cons_self, List.indexOf_cons_ne _ (Ne.symm hbne)]
      exact Nat.succ_pos _
    · refine (ih.filter _).imp_of_mem ?_
      intro a b ha hb hlt
      have hane : a ≠ y := by
        have := (List.mem_filter.mp ha).2
        simpa using this
      have hbne : b ≠ y := by
        have := (List.mem_filter.mp hb).2
        simpa using this
      rw [List.indexOf_cons_ne _ (Ne.symm hane), List.indexOf_cons_ne _ (Ne.symm hbne)]
      exact Nat.succ_lt_succ hlt

theorem withIdx_map_fst {α : Type} (k : Nat) (l : List α) :
    (withIdx k l).map (fun p => p.1) = l := by
  induction l generalizing k with
  | nil => rfl
  | cons a t ih => simp [withIdx, ih]

theorem withIdx_map_snd {α : Type} (k : Nat) (l : List α) :
    (withIdx k l).map (fun p => p.2) = List.range' k l.length := by
  induction l generalizing k with
  | nil => rfl
  | cons a t ih => simp [withIdx, ih, List.range']

theorem mem_withIdx {α : Type} {p : α × Nat} {l : List α} :
    ∀ {k : Nat}, p ∈ withIdx k l → ∃ j, l[j]? = some p.1 ∧ p.2 = k + j := by
  induction l with
  | nil => intro k h; simp [withIdx] at h
  | cons a t ih =>
    intro k h
    simp only [withIdx, List.mem_cons] at h
    rcases h with h | h
    · subst h
      exact ⟨0, by simp, by simp⟩
    · obtain ⟨j, hj1, hj2⟩ := ih h
      exact ⟨j + 1, by simpa using hj1, by omega⟩

theorem withIdx_map_comp {α β : Type} (g : α → β) (k : Nat) (l : List α) :
    (withIdx k l).map (fun p => g p.1) = l.map g := by
  have h1 : (fun p : α × Nat => g p.1) = g ∘ (fun p : α × Nat => p.1) := rfl
  rw [h1, ← List.map_map, withIdx_map_fst]

theorem pairwise_ne_of_nodup_map {α β : Type} {f : α → β} {l : List α}
    (h : (l.map f).Nodup) : l.Pairwise (fun a b => f a ≠ f b) := by
  induction l with
  | nil => constructor
  | cons a t ih =>
    simp only [List.map_cons, List.nodup_cons] at h
    constructor
    · intro b hb heq
      exact h.1 (by rw [heq]; exact List.mem_map_of_mem f hb)
    · exact ih h.2

theorem vcDecorated_idx_mono {α : Type} [DecidableEq α] {ys : List α}
    {a b : α × Nat × Nat} (ha : a ∈ vcDecorated ys) (hb : b ∈ vcDecorated ys)
    (hlt : a.2.2 < b.2.2) : ys.indexOf a.1 < ys.indexOf b.1 := by
  obtain ⟨pa, hpa, rfl⟩ := List.mem_map.mp ha
  obtain ⟨pb, hpb, rfl⟩ := List.mem_map.mp hb
  obtain ⟨i, hi1, hi2⟩ := mem_withIdx hpa
  obtain ⟨j, hj1, hj2⟩ := mem_withIdx hpb
  have hij : i < j := by simpa [hi2, hj2] using hlt
  have hp := List.pairwise_iff_get.mp (pairwise_indexOf_distinctFirstSeen ys)
  obtain ⟨hi, hgi⟩ := List.getElem?_eq_some_iff.mp hi1
  obtain ⟨hj, hgj⟩ := List.getElem?_eq_some_iff.mp hj1
  have := hp ⟨i, hi⟩ ⟨j, hj⟩ (by simpa using hij)
  simpa [List.get_eq_getElem, hgi, hgj] using this

theorem vcDecorated_idx_nodup {α : Type} [DecidableEq α] (ys : List α) :
    ((vcDecorated ys).map (fun p => p.2.2)).Nodup := by
  unfold vcDecorated
  rw [List.map_map]
  have h1 : ((fun p : α × Nat × Nat => p.2.2) ∘
      (fun p : α × Nat => (p.1, ys.count p.1, p.2))) = (fun p : α × Nat => p.2) := rfl
  rw [h1, withIdx_map_snd]
  exact List.nodup_range' _ _

theorem pairwise_valueCounts {α : Type} [DecidableEq α] (xs : List (Option α)) :
    (valueCounts xs).Pairwise (fun p q => q.2 < p.2 ∨
      (p.2 = q.2 ∧ (xs.filterMap id).indexOf p.1 < (xs.filterMap id).indexOf q.1)) := by
  unfold valueCounts
  rw [List.pairwise_map]
  have hsorted : (List.insertionSort vcLe (vcDecorated (xs.filterMap id))).Pairwise vcLe :=
    List.sorted_insertionSort vcLe (vcDecorated (xs.filterMap id))
  have hperm : (List.insertionSort vcLe (vcDecorated (xs.filterMap id))).Perm
      (vcDecorated (xs.filterMap id)) :=
    List.perm_insertionSort vcLe (vcDecorated (xs.filterMap id))
  have hnodup : ((List.insertionSort vcLe (vcDecorated (xs.filterMap id))).map
      (fun p => p.2.2)).Nodup :=
    (List.Perm.nodup_iff (hperm.map _)).mpr (vcDecorated_idx_nodup _)
  have hne := pairwise_ne_of_nodup_map hnodup
  refine (hsorted.and hne).imp_of_mem ?_
  intro a b ha hb hab
  have ha' : a ∈ vcDecorated (xs.filterMap id) := hperm.subset ha
  have hb' : b ∈ vcDecorated (xs.filterMap id) := hperm.subset hb
  obtain ⟨hle, hneq⟩ := hab
  rcases hle with h1 | ⟨h2, h3⟩
  · exact Or.inl h1
  · exact Or.inr ⟨h2, vcDecorated_idx_mono ha' hb' (by omega)⟩

theorem tableCount_perm {α : Type} [DecidableEq α] {t t' : List (α × Nat)}
    (h : t.Perm t') (v : α) : tableCount t v = tableCount t' v := by
  unfold tableCount
  exact ((h.filter _).map _).sum_eq

theorem sumCounts_perm {α : Type} {t t' : List (α × Nat)} (h : t.Perm t') :
    sumCounts t = sumCounts t' :=
  (h.map _).sum_eq

theorem vcDecorated_strip {α : Type} [DecidableEq α] (ys : List α) :
    (vcDecorated ys).map (fun p => (p.1, p.2.1))
      = (distinctFirstSeen ys).map (fun v => (v, ys.count v)) := by
  unfold vcDecorated
  rw [List.map_map]
  exact withIdx_map_comp (fun v => (v, ys.count v)) 0 (distinctFirstSeen ys)

theorem valueCounts_perm {α : Type} [DecidableEq α] (xs : List (Option α)) :
    (valueCounts xs).Perm ((distinctFirstSeen (xs.filterMap id)).map
      (fun v => (v, (xs.filterMap id).count v))) := by
  unfold valueCounts
  rw [← vcDecorated_strip]
  exact (List.perm_insertionSort vcLe (vcDecorated (xs.filterMap id))).map _

theorem filter_eq_of_nodup {α : Type} [DecidableEq α] {L : List α} (h : L.Nodup) (v : α) :
    L.filter (fun w => w = v) = if v ∈ L then [v] else [] := by
  induction L with
  | nil => simp
  | cons a t ih =>
    rw [List.nodup_cons] at h
    by_cases hav : a = v
    · subst hav
      rw [List.filter_cons_of_pos (by simp)]
      have ht : t.filter (fun w => w = a) = [] := by
        rw [List.filter_eq_nil_iff]
        intro b hb
        simp only [decide_eq_true_eq]
        intro hba
        exact h.1 (hba ▸ hb)
      simp [ht]
    · rw [List.filter_cons_of_neg (by simp [hav]), ih h.2]
      have hvne : v ≠ a := fun hva => hav hva.symm
      by_cases hv : v ∈ t
      · simp [hv, List.mem_cons, hvne]
      · simp [hv, List.mem_cons, hvne]

theorem tableCount_valueCounts {α : Type} [DecidableEq α] (xs : List (Option α)) (v : α) :
    tableCount (valueCounts xs) v = (xs.filterMap id).count v := by
  rw [tableCount_perm (valueCounts_perm xs) v]
  unfold tableCount
  rw [List.filter_map]
  have hcomp : ((fun p : α × Nat => decide (p.1 = v)) ∘
      (fun w => (w, (xs.filterMap id).count w))) = (fun w => decide (w = v)) := rfl
  rw [hcomp, filter_eq_of_nodup (nodup_distinctFirstSeen _) v]
  by_cases hv : v ∈ distinctFirstSeen (xs.filterMap id)
  · simp [hv]
  · have hv' : v ∉ xs.filterMap id := fun h => hv (mem_distinctFirstSeen.mpr h)
    simp [hv, List.count_eq_zero.mpr hv']

theorem length_count_filter {α : Type} [DecidableEq α] (v : α) (ys : List α) :
    ys.length = ys.count v + (ys.filter (fun x => x ≠ v)).length := by
  induction ys with
  | nil => simp
  | cons a t ih =>
    by_cases hav : a = v
    · subst hav
      rw [List.filter_cons_of_neg (by simp)]
      simp only [List.length_cons, List.count_cons_self]
      omega
    · rw [List.filter_cons_of_pos (by simp [hav]),
        List.count_cons_of_ne (fun h => hav h.symm)]
      simp only [List.length_cons]
      omega

theorem sum_map_count_of_cover {α : Type} [DecidableEq α] :
    ∀ (L : List α) (ys : List α), L.Nodup → (∀ v ∈ ys, v ∈ L) →
      (L.map (fun v => ys.count v)).sum = ys.length := by
  intro L
  induction L with
  | nil =>
    intro ys _ hcov
    cases ys with
    | nil => simp
    | cons a t => exact absurd (hcov a (by simp)) (by simp)
  | cons v L' ih =>
    intro ys hnd hcov
    rw [List.nodup_cons] at hnd
    simp only [List.map_cons, List.sum_cons]
    have hmapeq : L'.map (fun w => ys.count w)
        = L'.map (fun w => (ys.filter (fun x => x ≠ v)).count w) := by
      apply List.map_congr_left
      intro w hw
      have hwv : w ≠ v := fun h => hnd.1 (h ▸ hw)
      exact (List.count_filter (by simp [hwv])).symm
    have hcov' : ∀ w ∈ ys.filter (fun x => x ≠ v), w ∈ L' := by
      intro w hw
      obtain ⟨hw1, hw2⟩ := List.mem_filter.mp hw
      have hwv : w ≠ v := by simpa using hw2
      rcases List.mem_cons.mp (hcov w hw1) with h | h
      · exact absurd h hwv
      · exact h
    rw [hmapeq, ih (ys.filter (fun x => x ≠ v)) hnd.2 hcov']
    exact (length_count_filter v ys).symm

theorem sumCounts_valueCounts {α : Type} [DecidableEq α] (xs : List (Option α)) :
    sumCounts (valueCounts xs) = (xs.filterMap id).length := by
  rw [sumCounts_perm (valueCounts_perm xs)]
  unfold sumCounts
  rw [List.map_map]
  exact sum_map_count_of_cover (distinctFirstSeen (xs.filterMap id)) (xs.filterMap id)
    (nodup_distinctFirstSeen _) (fun v hv => mem_distinctFirstSeen.mpr hv)

theorem length_filterMap_map {α β : Type} (f : α → Option β) (l : List α) :
    ((l.map f).filterMap id).length = l.countP (fun a => (f a).isSome) := by
  induction l with
  | nil => simp
  | cons a t ih =>
    rw [List.map_cons, List.filterMap_cons, List.countP_cons]
    cases h : f a with
    | none => simpa [h] using ih
    | some b => simpa [h] using ih

theorem buildMarkers_isOk {l : List Row} :
    (buildMarkers l).isOk = true ↔ ∀ r ∈ l, r.date.isSome = true := by
  induction l with
  | nil => simp [buildMarkers, Except.isOk, Except.toBool]
  | cons r t ih =>
    cases hd : r.date with
    | none =>
      simp only [buildMarkers, popupInfo, hd]
      constructor
      · intro h
        simp [Except.isOk, Except.toBool] at h
      · intro h
        have := h r (by simp)
        rw [hd] at this
        simp at this
    | some ts =>
      simp only [buildMarkers, popupInfo, hd]
      cases hm : buildMarkers t with
      | error e =>
        constructor
        · intro h
          simp [Except.isOk, Except.toBool] at h
        · intro h
          have : ∀ r' ∈ t, r'.date.isSome = true := fun r' hr' => h r' (by simp [hr'])
          rw [← ih, hm] at this
          simp [Except.isOk, Except.toBool] at this
      | ok ms =>
        constructor
        · intro _
          intro r' hr'
          rcases List.mem_cons.mp hr' with h | h
          · subst h; simp [hd]
          · have : ∀ r'' ∈ t, r''.date.isSome = true := by
              rw [← ih, hm]
              simp [Except.isOk, Except.toBool]
            exact this r' h
        · intro _
          simp [Except.isOk, Except.toBool]

theorem count_filterMap_singleton {α : Type} [DecidableEq α] (o : Option α) (v : α) :
    (([o] : List (Option α)).filterMap id).count v = if o = some v then 1 else 0 := by
  cases o with
  | none => simp
  | some w =>
    simp only [List.filterMap_cons, id, List.filterMap_nil, Option.some.injEq]
    by_cases h : w = v
    · simp [h]
    · have hvw : v ≠ w := fun hv => h hv.symm
      simp [h, List.count_cons_of_ne hvw]

theorem tableCount_homicidesByDay (rows : List Row) (v : String) :
    tableCount (homicidesByDay rows) v = ((dayValues rows).filterMap id).count v := by
  unfold homicidesByDay
  rw [tableCount_valueCounts]

theorem tableCount_homicidesByHour (rows : List Row) (v : Nat) :
    tableCount (homicidesByHour rows) v = ((hourValues rows).filterMap id).count v := by
  unfold homicidesByHour
  rw [tableCount_perm (List.perm_insertionSort _ _) v, tableCount_valueCounts]

/-! ### Claims -/

/-- C1: the Report Composer writes the rendered summary document to the fixed
report path and signals completion with a final status message; any successful
invocation's event trace consists of exactly the four artifact writes (day
chart, hour chart, map HTML, homicide_report.html), in order, followed by the
final status message. Report write and status message are modelled from the
spec because src/app.py is truncated at the `template.render` call. -/
theorem c1_report_artifacts (store : List RawRow) (evs : List Event)
    (h : runPipeline store = Except.ok evs) :
    artifactWrites evs = [dayChartFile, hourChartFile, mapFile, reportFile]
      ∧ evs.getLast? = some (Event.status statusMessage) := by
  unfold runPipeline at h
  split at h
  · exact absurd h (by simp)
  · split at h
    · exact absurd h (by simp)
    · split at h
      · exact absurd h (by simp)
      · have hevs : evs = [Event.write dayChartFile, Event.write hourChartFile,
            Event.write mapFile, Event.write reportFile, Event.status statusMessage] := by
          injection h with h'
          exact h'.symm
        subst hevs
        exact ⟨rfl, rfl⟩

/-- C1 witness: on a concrete one-row store the run succeeds and the trace is
the four fixed artifact writes followed by the status message. -/
theorem c1_report_artifacts_witness :
    runPipeline c1Store = Except.ok c1Events
      ∧ (artifactWrites c1Events = [dayChartFile, hourChartFile, mapFile, reportFile]
        ∧ c1Events.getLast? = some (Event.status statusMessage)) :=
  ⟨by rfl, c1_report_artifacts c1Store c1Events (by rfl)⟩

/-- C2 counterexample: on a store where zero rows match the homicide filter,
the total is 0 but both mode computations raise (pandas `idxmax` on an empty
value-counts series), refuting the claim that the aggregate stage does not
raise. -/
theorem c2_counterexample :
    totalHomicides (pipelineRows c2Store) = 0
      ∧ (mostCommonDay (pipelineRows c2Store)).isOk = false
      ∧ (mostCommonTime (pipelineRows c2Store)).isOk = false :=
  ⟨rfl, rfl, rfl⟩

/-- C2 amended: when zero rows match the category filter the total equals 0,
but the two mode computations raise the empty-argmax ValueError instead of
completing without error. -/
theorem c2_empty_filter_modes_raise (store : List RawRow)
    (h : loadHomicides store = []) :
    totalHomicides (pipelineRows store) = 0
      ∧ mostCommonDay (pipelineRows store) = Except.error argmaxEmptyMsg
      ∧ mostCommonTime (pipelineRows store) = Except.error argmaxEmptyMsg := by
  have hrows : pipelineRows store = [] := by
    unfold pipelineRows
    rw [h]
    rfl
  rw [hrows]
  exact ⟨rfl, rfl, rfl⟩

/-- C2 witness: a concrete store with no matching rows satisfies the amended
claim's hypothesis and conclusion. -/
theorem c2_empty_filter_modes_raise_witness :
    totalHomicides (pipelineRows c2WStore) = 0
      ∧ mostCommonDay (pipelineRows c2WStore) = Except.error argmaxEmptyMsg
      ∧ mostCommonTime (pipelineRows c2WStore) = Except.error argmaxEmptyMsg :=
  c2_empty_filter_modes_raise c2WStore (by rfl)

/-- C3 counterexample: a filtered set with one row whose timestamp is null has
per-day frequency counts summing to 0, while the total filtered row count is
1, refuting the claimed equality of the day-count sum with the total. -/
theorem c3_counterexample :
    sumCounts (homicidesByDay (pipelineRows c3Store))
      ≠ totalHomicides (pipelineRows c3Store) := by decide

/-- C3 amended: the per-day frequency counts sum to the number of rows with a
non-null day-of-week (value_counts drops nulls, so unparsable timestamps are
not counted), and the per-hour frequency counts sum to the number of rows
with a non-null hour, as claimed. -/
theorem c3_frequency_sums (rows : List Row) :
    sumCounts (homicidesByDay rows) = rows.countP (fun r => r.dayOfWeek.isSome)
      ∧ sumCounts (homicidesByHour rows) = rows.countP (fun r => r.hour.isSome) := by
  constructor
  · unfold homicidesByDay
    rw [sumCounts_valueCounts]
    unfold dayValues
    exact length_filterMap_map _ rows
  · unfold homicidesByHour
    rw [sumCounts_perm (List.perm_insertionSort _ _), sumCounts_valueCounts]
    unfold hourValues
    exact length_filterMap_map _ rows

/-- C4: evaluation at the failing input: the single filtered row falls in
hour 3, and the per-hour table used for rendering is exactly [(3, 1)] - its
key set is [3], so hour 5 (and every other zero-occurrence hour) is omitted
from the table rather than appearing with count zero, while the chart's tick
labelling (`plt.xticks(range(0, 24), ...)`) assumes all 24 hour positions. -/
theorem c4_hour_zero_omitted :
    homicidesByHour (pipelineRows c4Store) = [(3, 1)]
      ∧ (homicidesByHour (pipelineRows c4Store)).map (fun p => p.1) = [3] :=
  ⟨by decide, by decide⟩

/-- C5: a row with a null latitude or longitude is excluded from the map
dataframe (appending it leaves the map data unchanged and it is never a
member), yet it still increments the total count, contributes its day and
hour to the frequency tables, and enters both the numerator count and the
denominator of the arrest rate. -/
theorem c5_coordless_row_scope (rows : List Row) (r : Row) (d : String) (hr : Nat)
    (hc : r.latitude = none ∨ r.longitude = none) :
    mapDf (rows ++ [r]) = mapDf rows
      ∧ r ∉ mapDf (rows ++ [r])
      ∧ totalHomicides (rows ++ [r]) = totalHomicides rows + 1
      ∧ tableCount (homicidesByDay (rows ++ [r])) d
          = tableCount (homicidesByDay rows) d
            + (if r.dayOfWeek = some d then 1 else 0)
      ∧ tableCount (homicidesByHour (rows ++ [r])) hr
          = tableCount (homicidesByHour rows) hr
            + (if r.hour = some hr then 1 else 0)
      ∧ (rows ++ [r]).countP (fun x => x.arrest)
          = rows.countP (fun x => x.arrest) + (if r.arrest then 1 else 0) := by
  have hpr : (fun x : Row => x.latitude.isSome && x.longitude.isSome) r = false := by
    rcases hc with h | h <;> simp [h]
  refine ⟨?_, ?_, ?_, ?_, ?_, ?_⟩
  · unfold mapDf
    rw [List.filter_append]
    have h1 : List.filter (fun x : Row => x.latitude.isSome && x.longitude.isSome) [r] = [] := by
      rw [List.filter_cons_of_neg (by simp [hpr]), List.filter_nil]
    rw [h1, List.append_nil]
  · intro hmem
    have := (List.mem_filter.mp hmem).2
    rcases hc with h | h <;> rw [h] at this <;> simp at this
  · unfold totalHomicides
    simp
  · rw [tableCount_homicidesByDay, tableCount_homicidesByDay]
    unfold dayValues
    rw [List.map_append, List.filterMap_append, List.count_append]
    congr 1
    simpa using count_filterMap_singleton r.dayOfWeek d
  · rw [tableCount_homicidesByHour, tableCount_homicidesByHour]
    unfold hourValues
    rw [List.map_append, List.filterMap_append, List.count_append]
    congr 1
    simpa using count_filterMap_singleton r.hour hr
  · rw [List.countP_append]
    congr 1
    rw [List.countP_cons, List.countP_nil]
    simp

/-- C5 witness: one complete concrete row plus one concrete coordinate-less
row (Monday, hour 4, arrest true): the coordinate-less row is excluded from
the map data but counted everywhere else. -/
theorem c5_coordless_row_scope_witness :
    mapDf (c5Rows ++ [c5Row]) = mapDf c5Rows
      ∧ c5Row ∉ mapDf (c5Rows ++ [c5Row])
      ∧ totalHomicides (c5Rows ++ [c5Row]) = totalHomicides c5Rows + 1
      ∧ tableCount (homicidesByDay (c5Rows ++ [c5Row])) "Monday"
          = tableCount (homicidesByDay c5Rows) "Monday"
            + (if c5Row.dayOfWeek = some "Monday" then 1 else 0)
      ∧ tableCount (homicidesByHour (c5Rows ++ [c5Row])) 4
          = tableCount (homicidesByHour c5Rows) 4
            + (if c5Row.hour = some 4 then 1 else 0)
      ∧ (c5Rows ++ [c5Row]).countP (fun x => x.arrest)
          = c5Rows.countP (fun x => x.arrest) + (if c5Row.arrest then 1 else 0) :=
  c5_coordless_row_scope c5Rows c5Row "Monday" 4 (by decide)

/-- C6: the Feature Deriver is total (never raises); when the timestamp
parses, the derived hour lies in [0,23] and the derived day-of-week is one of
the seven English day names; when the timestamp is null or unparsable, all
three derived fields are null. -/
theorem c6_derived_fields (r : RawRow) (t : Nat) :
    ((derive r).date = none →
      (derive r).dayOfWeek = none ∧ (derive r).hour = none ∧ (derive r).timeOfDay = none)
    ∧ ((derive r).date = some t →
      (derive r).hour = some (hourOf t) ∧ hourOf t ≤ 23
        ∧ (derive r).dayOfWeek = some (dayName t) ∧ dayName t ∈ weekDayNames
        ∧ (derive r).timeOfDay = some (strftime12 t)) := by
  have hd : (derive r).date = toDatetime r.dateStr := rfl
  have hdw : (derive r).dayOfWeek = (toDatetime r.dateStr).map dayName := rfl
  have hh : (derive r).hour = (toDatetime r.dateStr).map hourOf := rfl
  have ht : (derive r).timeOfDay = (toDatetime r.dateStr).map strftime12 := rfl
  constructor
  · intro h
    rw [hd] at h
    rw [hdw, hh, ht, h]
    exact ⟨rfl, rfl, rfl⟩
  · intro h
    rw [hd] at h
    rw [hdw, hh, ht, h]
    refine ⟨rfl, ?_, rfl, ?_, rfl⟩
    · have := Nat.mod_lt (t / 60) (show 0 < 24 by omega)
      unfold hourOf
      omega
    · unfold dayName
      have hlt : (t / 1440 + 3) % 7 < 7 := Nat.mod_lt _ (by omega)
      set k := (t / 1440 + 3) % 7 with hk
      interval_cases k <;> decide

/-- C6 witness: a row with unparsable timestamp gets three null derived
fields; a row with timestamp 2020-01-06 03:15 (parsed minute stamp 26304675)
gets hour 3 and day name Monday, within the legal ranges. -/
theorem c6_derived_fields_witness :
    ((derive c6RowBad).dayOfWeek = none ∧ (derive c6RowBad).hour = none
      ∧ (derive c6RowBad).timeOfDay = none)
    ∧ ((derive c6RowGood).hour = some (hourOf 26304675) ∧ hourOf 26304675 ≤ 23
      ∧ (derive c6RowGood).dayOfWeek = some (dayName 26304675)
      ∧ dayName 26304675 ∈ weekDayNames
      ∧ (derive c6RowGood).timeOfDay = some (strftime12 26304675)) :=
  ⟨(c6_derived_fields c6RowBad 0).1 (by decide),
   (c6_derived_fields c6RowGood 26304675).2 (by decide)⟩

/-- C7 counterexample: on an empty store the filtered set is empty and the
arrest-rate expression is the mean of an empty boolean column: NaN (none),
not a number lying in [0, 100]. -/
theorem c7_counterexample : arrestsMade (pipelineRows []) = none := rfl

/-- C7 amended: for every filtered row set with at least one row, the arrest
rate equals 100 times the fraction of true arrest flags over all rows and
lies in [0, 100]. -/
theorem c7_arrest_rate_bounds (rows : List Row) (h : rows ≠ []) :
    arrestsMade rows
        = some (((rows.countP (fun r => r.arrest) : Rat) / (rows.length : Rat)) * 100)
      ∧ 0 ≤ ((rows.countP (fun r => r.arrest) : Rat) / (rows.length : Rat)) * 100
      ∧ ((rows.countP (fun r => r.arrest) : Rat) / (rows.length : Rat)) * 100 ≤ 100 := by
  have hlen : rows.length ≠ 0 := fun h0 => h (List.length_eq_zero.mp h0)
  have hpos : (0 : Rat) < (rows.length : Rat) := by
    have : 0 < rows.length := Nat.pos_of_ne_zero hlen
    exact_mod_cast this
  refine ⟨?_, ?_, ?_⟩
  · unfold arrestsMade
    rw [if_neg hlen]
  · have h1 : (0 : Rat) ≤ (rows.countP (fun r => r.arrest) : Rat) := by positivity
    have h2 : (0 : Rat) ≤ (rows.countP (fun r => r.arrest) : Rat) / (rows.length : Rat) :=
      div_nonneg h1 (le_of_lt hpos)
    nlinarith
  · have hle : (rows.countP (fun r => r.arrest) : Rat) ≤ (rows.length : Rat) := by
      exact_mod_cast List.countP_le_length _
    have h1 : (rows.countP (fun r => r.arrest) : Rat) / (rows.length : Rat) ≤ 1 :=
      (div_le_one hpos).mpr hle
    nlinarith

/-- C7 witness: a concrete two-row filtered set (one arrest) has arrest rate
100 * (1/2) = 50, within bounds. -/
theorem c7_arrest_rate_bounds_witness :
    arrestsMade c7Rows
        = some (((c7Rows.countP (fun r => r.arrest) : Rat) / (c7Rows.length : Rat)) * 100)
      ∧ 0 ≤ ((c7Rows.countP (fun r => r.arrest) : Rat) / (c7Rows.length : Rat)) * 100
      ∧ ((c7Rows.countP (fun r => r.arrest) : Rat) / (c7Rows.length : Rat)) * 100 ≤ 100 :=
  c7_arrest_rate_bounds c7Rows (by decide)

/-- C8: the top-5 locations table has at most five entries; counts are
non-increasing along it, and any two entries with equal counts appear in
first-seen order of the non-null premise-description column. -/
theorem c8_top5_ordered (rows : List Row) :
    (top5Locations rows).length ≤ 5
      ∧ (top5Locations rows).Pairwise (fun p q =>
          q.2 ≤ p.2 ∧ (p.2 = q.2 →
            (premisList rows).indexOf p.1 < (premisList rows).indexOf q.1)) := by
  constructor
  · exact List.length_take_le 5 _
  · have h := pairwise_valueCounts (premisValues rows)
    have h5 := List.Pairwise.sublist
      (List.take_sublist 5 (valueCounts (premisValues rows))) h
    refine h5.imp ?_
    intro p q hpq
    constructor
    · rcases hpq with h1 | ⟨h2, _⟩
      · omega
      · omega
    · intro heq
      rcases hpq with h1 | ⟨h2, h3⟩
      · omega
      · exact h3

/-- C9 counterexample: when the load query fails the exception propagates
before `conn.close()` runs, so the connection is not released. -/
theorem c9_counterexample : (dataLoader [] true).connClosed = false := rfl

/-- C9 amended: the connection is closed immediately after the load exactly
when the load query succeeds; on a failing query the error propagates with
the connection still open. -/
theorem c9_connection_close (store : List RawRow) (qf : Bool) :
    (dataLoader store qf).connClosed = !qf
      ∧ (dataLoader store qf).df
          = (if qf then Except.error dbErrMsg else Except.ok (loadHomicides store)) := by
  cases qf <;> simp [dataLoader]

/-- C10: building the marker layer over the coordinate-filtered rows succeeds
exactly when every row with valid coordinates has a non-null parsed date; a
null date under valid coordinates raises in the popup's strftime call. -/
theorem c10_map_requires_dates (rows : List Row) :
    (buildMarkers (mapDf rows)).isOk = true
      ↔ ∀ r ∈ mapDf rows, r.date.isSome = true :=
  buildMarkers_isOk

/-- C10 witness: on a concrete row set whose valid-coordinate rows all carry
parsed dates, marker construction succeeds. -/
theorem c10_map_requires_dates_witness :
    (buildMarkers (mapDf c10Rows)).isOk = true :=
  (c10_map_requires_dates c10Rows).mpr (by decide)

end CrimeAnalytics
